import Mathlib

/-!
Shallow embedding of the point-of-sale transaction engine of the
`pharmacy_v1` repository: the POST branch of `pos_view`
(`inventory/views.py`, lines 261-310) together with the model layer it
uses (`inventory/models.py`: `Medicine`, `Sale`, `SaleItem`,
`Sale.update_total`).

Modelling conventions:
* Database rows are Lean structures; the database is a `DB` record of
  row lists plus the auto-increment counter for `Sale` primary keys.
* Machine/DB integers are `Int` (Django `IntegerField`); quantities are
  `Int` as well, with the `PositiveIntegerField` check constraint
  (`models.py` line 80 `Medicine.quantity`, line 132 `SaleItem.quantity`)
  modelled explicitly: a write of a negative value raises
  `IntegrityError` and aborts the transaction.
* `transaction.atomic` (views.py line 271) plus the catch-all
  `except Exception` (line 309) are modelled by `Except`: any raised
  error yields `.error e`, and `posPostState` returns the original
  database in that case (rollback).
* `F('quantity') ± n` updates (views.py lines 276, 304) are in-database
  read-modify-writes executed inside the same transaction; since the
  embedding is sequential they are ordinary arithmetic on the current
  stored value.
* `is_active` is the soft-delete flag used by `views.py` (lines 189,
  241, 313); its column lives in a migration not shipped under `src/`,
  but every use site is in `views.py`.
-/

namespace Pharmacy

/-- Medicine row (`models.py`, class `Medicine`), restricted to the
fields the POS engine reads or writes: primary key, `quantity`
(stock on hand, a `PositiveIntegerField`), `selling_price`
(an `IntegerField`), and the `is_active` soft-delete flag. -/
structure Medicine where
  id : Nat
  quantity : Int
  selling_price : Int
  is_active : Bool
deriving DecidableEq

/-- Sale row (`models.py`, class `Sale`): primary key, `created_at`
(abstract timestamp, `default=timezone.now` so it is set once at row
creation and never touched by later saves), `created_by` (nullable user
reference), `delivery_fee`, `total_amount`, and the customer fields. -/
structure Sale where
  id : Nat
  created_at : Nat
  created_by : Option Nat
  delivery_fee : Int
  total_amount : Int
  customer_name : String
  customer_phone : String
  customer_address : String
deriving DecidableEq

/-- SaleItem row (`models.py`, class `SaleItem`): sale foreign key,
medicine foreign key, `quantity` (a `PositiveIntegerField`) and the
`price_at_sale` snapshot (an `IntegerField`). -/
structure SaleItem where
  sale_id : Nat
  medicine_id : Nat
  quantity : Int
  price_at_sale : Int
deriving DecidableEq

/-- One cart line of the POSted JSON body (`views.py` lines 289-292):
`item_data['id']`, `int(item_data['quantity'])`, `int(item_data['price'])`. -/
structure CartLine where
  id : Nat
  quantity : Int
  price : Int
deriving DecidableEq

/-- The decoded POST body of `pos_view` (`views.py` lines 263-269). -/
structure PosRequest where
  cart : List CartLine
  delivery_fee : Int
  customer_name : String
  customer_phone : String
  customer_address : String
  sale_id : Option Nat
deriving DecidableEq

/-- The database state the POS engine touches. -/
structure DB where
  medicines : List Medicine
  sales : List Sale
  saleItems : List SaleItem
  nextSaleId : Nat
deriving DecidableEq

/-- The exceptions that can escape the `transaction.atomic` block of
`pos_view`: `Http404` from `get_object_or_404(Sale, pk=sale_id)`
(line 273), `Medicine.DoesNotExist` from `Medicine.objects.get`
(line 290), the `ValueError("Not enough stock for ...")` raised by the
stock check (line 295), and `IntegrityError` from a
`PositiveIntegerField` check-constraint violation. All are caught by
`except Exception` (line 309) after the transaction rolled back. -/
inductive PosError where
  | SaleNotFound (sale_id : Nat)
  | MedicineNotFound (medicine_id : Nat)
  | InsufficientStock (medicine_id : Nat)
  | IntegrityError
deriving DecidableEq

/-- `Medicine.objects.get(pk=mid)` / FK dereference: first row whose
primary key matches. -/
def findMedicine (ms : List Medicine) (mid : Nat) : Option Medicine :=
  ms.find? (fun m => m.id == mid)

/-- `Sale.objects.get(pk=sid)` (via `get_object_or_404`). -/
def findSale (ss : List Sale) (sid : Nat) : Option Sale :=
  ss.find? (fun s => s.id == sid)

/-- The UPDATE hitting the `quantity` column of the medicine with
primary key `mid` (the row write of `medicine.save(update_fields=['quantity'])`). -/
def updateQty (ms : List Medicine) (mid : Nat) (q : Int) : List Medicine :=
  match ms with
  | [] => []
  | m :: rest =>
    (if m.id == mid then { m with quantity := q } else m) :: updateQty rest mid q

/-- `medicine.save(update_fields=['quantity'])` with the
`PositiveIntegerField` check constraint of `Medicine.quantity`
(`models.py` line 80): writing a negative quantity raises
`IntegrityError`. -/
def medSave (ms : List Medicine) (mid : Nat) (q : Int) :
    Except PosError (List Medicine) :=
  if q < 0 then .error .IntegrityError
  else .ok (updateQty ms mid q)

/-- The stock-restoration loop of the amend path (`views.py` lines
275-277): for every old item, `old_item.medicine.quantity =
F('quantity') + old_item.quantity; old_item.medicine.save(...)`. The FK
dereference `old_item.medicine` fails with `DoesNotExist` if the row is
missing. -/
def restoreItems (ms : List Medicine) (items : List SaleItem) :
    Except PosError (List Medicine) :=
  match items with
  | [] => .ok ms
  | it :: rest =>
    match findMedicine ms it.medicine_id with
    | none => .error (.MedicineNotFound it.medicine_id)
    | some m =>
      match medSave ms it.medicine_id (m.quantity + it.quantity) with
      | .error e => .error e
      | .ok ms1 => restoreItems ms1 rest

/-- The cart loop of `pos_view` (`views.py` lines 289-305), in cart
order: load the medicine by primary key (`DoesNotExist` if absent; note
there is no `is_active` filter here), check
`medicine.quantity < quantity_sold` (raising the "Not enough stock"
`ValueError`), create the `SaleItem` (its `PositiveIntegerField`
`quantity` rejects negatives with `IntegrityError`), then decrement the
stock with `F('quantity') - quantity_sold`. Returns the updated
medicines and the created items. -/
def applyCart (sid : Nat) (ms : List Medicine) (cart : List CartLine) :
    Except PosError (List Medicine × List SaleItem) :=
  match cart with
  | [] => .ok (ms, [])
  | l :: rest =>
    match findMedicine ms l.id with
    | none => .error (.MedicineNotFound l.id)
    | some m =>
      if m.quantity < l.quantity then .error (.InsufficientStock l.id)
      else if l.quantity < 0 then .error .IntegrityError
      else
        match medSave ms l.id (m.quantity - l.quantity) with
        | .error e => .error e
        | .ok ms1 =>
          match applyCart sid ms1 rest with
          | .error e => .error e
          | .ok (ms2, items) =>
            .ok (ms2, ⟨sid, l.id, l.quantity, l.price⟩ :: items)

/-- The checks of the cart loop alone: `true` exactly when every line,
processed in cart order against the already-decremented stock, passes
all of them. -/
def cartFits (ms : List Medicine) (cart : List CartLine) : Bool :=
  match cart with
  | [] => true
  | l :: rest =>
    match findMedicine ms l.id with
    | none => false
    | some m =>
      if m.quantity < l.quantity then false
      else if l.quantity < 0 then false
      else cartFits (updateQty ms l.id (m.quantity - l.quantity)) rest

/-- The `SaleItem` rows `applyCart` creates for a cart
(`views.py` lines 297-302): one per line, snapshotting the line's own
`price` field as `price_at_sale`. -/
def cartItems (sid : Nat) (cart : List CartLine) : List SaleItem :=
  match cart with
  | [] => []
  | l :: rest => ⟨sid, l.id, l.quantity, l.price⟩ :: cartItems sid rest

/-- `Sale.objects.create()` (`views.py` line 280): a fresh row with the
model defaults `created_at=timezone.now`, `created_by=NULL`,
`delivery_fee=0`, `total_amount=0`, blank customer fields. -/
def newSaleRecord (id : Nat) (now : Nat) : Sale :=
  { id := id, created_at := now, created_by := none, delivery_fee := 0,
    total_amount := 0, customer_name := "", customer_phone := "",
    customer_address := "" }

/-- The field assignments of `views.py` lines 282-286 followed by
`sale.save()`: `created_by`, `delivery_fee` and the customer fields are
overwritten; `created_at` and `total_amount` keep their stored values. -/
def applyReqFields (req : PosRequest) (actor : Nat) (s : Sale) : Sale :=
  { s with created_by := some actor, delivery_fee := req.delivery_fee,
           customer_name := req.customer_name,
           customer_phone := req.customer_phone,
           customer_address := req.customer_address }

/-- The row write performed by `sale.save()` at `views.py` line 287
(UPDATE of the row whose primary key is `sid`). -/
def setFields (sales : List Sale) (sid : Nat) (req : PosRequest) (actor : Nat) :
    List Sale :=
  match sales with
  | [] => []
  | s :: rest =>
    (if s.id == sid then applyReqFields req actor s else s)
      :: setFields rest sid req actor

/-- `sum(item.subtotal for item in self.items.all())` of
`Sale.update_total` (`models.py` line 122): the related manager
`self.items` is the set of `SaleItem` rows whose `sale` FK is `sid`,
and `subtotal = quantity * price_at_sale` (`models.py` line 138). -/
def itemsTotal (items : List SaleItem) (sid : Nat) : Int :=
  match items with
  | [] => 0
  | it :: rest =>
    (if it.sale_id == sid then it.quantity * it.price_at_sale else 0)
      + itemsTotal rest sid

/-- `Sale.update_total` (`models.py` lines 120-124): recompute
`total_amount = items_total + delivery_fee` and save the sale row. -/
def update_total (sales : List Sale) (items : List SaleItem) (sid : Nat) :
    List Sale :=
  match sales with
  | [] => []
  | s :: rest =>
    (if s.id == sid
      then { s with total_amount := itemsTotal items sid + s.delivery_fee }
      else s) :: update_total rest items sid

/-- The `else` branch of `views.py` lines 272-280: create a fresh sale
row; returns the new database and the new sale's primary key. -/
def posStepNew (db : DB) (now : Nat) : DB × Nat :=
  ({ db with sales := db.sales ++ [newSaleRecord db.nextSaleId now],
             nextSaleId := db.nextSaleId + 1 }, db.nextSaleId)

/-- The amend branch of `views.py` lines 272-278: look the sale up
(`get_object_or_404`), return each old item's quantity to stock, then
delete the sale's items. -/
def posStepAmend (db : DB) (sid : Nat) : Except PosError (DB × Nat) :=
  match findSale db.sales sid with
  | none => .error (.SaleNotFound sid)
  | some _ =>
    match restoreItems db.medicines
        (db.saleItems.filter (fun it => it.sale_id == sid)) with
    | .error e => .error e
    | .ok ms' =>
      .ok ({ db with medicines := ms',
                     saleItems := db.saleItems.filter (fun it => it.sale_id != sid) },
           sid)

/-- `if sale_id and user_has_permission(request.user, 'change_sale')`
(`views.py` line 272): the amend branch is taken only when the posted
`sale_id` is truthy (present and nonzero) and the caller holds
`change_sale`; otherwise a new sale is created. -/
def posStep1 (db : DB) (req : PosRequest) (canChangeSale : Bool) (now : Nat) :
    Except PosError (DB × Nat) :=
  match req.sale_id with
  | some sid =>
    if sid != 0 && canChangeSale then posStepAmend db sid
    else .ok (posStepNew db now)
  | none => .ok (posStepNew db now)

/-- `views.py` lines 282-307 after the sale row exists: write the
request fields onto the sale, run the cart loop, append the created
items, and finish with `sale.update_total()`. -/
def posStep234 (db1 : DB) (sid : Nat) (req : PosRequest) (actor : Nat) :
    Except PosError DB :=
  match applyCart sid db1.medicines req.cart with
  | .error e => .error e
  | .ok (ms', newItems) =>
    .ok { medicines := ms',
          sales := update_total (setFields db1.sales sid req actor)
                     (db1.saleItems ++ newItems) sid,
          saleItems := db1.saleItems ++ newItems,
          nextSaleId := db1.nextSaleId }

/-- The whole body of the `transaction.atomic` block of `pos_view`
(`views.py` lines 271-307): `actor` is `request.user`, `canChangeSale`
is `user_has_permission(request.user, 'change_sale')`, `now` the
current time. `.error e` means the exception `e` escaped the block. -/
def posPost (db : DB) (req : PosRequest) (actor : Nat) (canChangeSale : Bool)
    (now : Nat) : Except PosError DB :=
  match posStep1 db req canChangeSale now with
  | .error e => .error e
  | .ok (db1, sid) => posStep234 db1 sid req actor

/-- The database after the whole request: on success the new state, on
any exception the original state (`transaction.atomic` rolled back and
`except Exception` returned the error response, `views.py` lines 271,
309-310). -/
def posPostState (db : DB) (req : PosRequest) (actor : Nat)
    (canChangeSale : Bool) (now : Nat) : DB :=
  match posPost db req actor canChangeSale now with
  | .ok db' => db'
  | .error _ => db

/-- One POS POST request together with its caller context. -/
structure PosCall where
  req : PosRequest
  actor : Nat
  canChangeSale : Bool
  now : Nat

/-- A sequence of POS requests executed one at a time. -/
def runOps (db : DB) (ops : List PosCall) : DB :=
  match ops with
  | [] => db
  | o :: rest => runOps (posPostState db o.req o.actor o.canChangeSale o.now) rest

/-- A medicine edit that changes `selling_price`
(`MedicineUpdateView`, `views.py` lines 222-227: a form save updating
the medicine row only). -/
def setSellingPrice (db : DB) (mid : Nat) (p : Int) : DB :=
  { db with medicines :=
      db.medicines.map (fun m => if m.id == mid then { m with selling_price := p } else m) }

/-- Soft delete (`MedicineDeleteView.post`, `views.py` lines 235-244):
flip `is_active` to `False`, never removing the row. -/
def softDeleteMedicine (db : DB) (mid : Nat) : DB :=
  { db with medicines :=
      db.medicines.map (fun m => if m.id == mid then { m with is_active := false } else m) }

/-- The medicines offered on the POS screen (`views.py` line 313):
`Medicine.objects.filter(quantity__gt=0, is_active=True)`. -/
def posListing (db : DB) : List Medicine :=
  db.medicines.filter (fun m => decide (0 < m.quantity) && m.is_active)

/-- Current stock of the medicine with primary key `mid` (0 when the
row is absent, which never matters: the engine always looks rows up
first). -/
def stockOf (ms : List Medicine) (mid : Nat) : Int :=
  match findMedicine ms mid with
  | some m => m.quantity
  | none => 0

/-- Sum of the quantities a cart requests for medicine `mid`. -/
def cartSum (cart : List CartLine) (mid : Nat) : Int :=
  match cart with
  | [] => 0
  | l :: rest => (if l.id == mid then l.quantity else 0) + cartSum rest mid

/-- Sum of the cart's line subtotals (`quantity * price`). -/
def cartMoney (cart : List CartLine) : Int :=
  match cart with
  | [] => 0
  | l :: rest => l.quantity * l.price + cartMoney rest

/-- Sum of the quantities of items of medicine `mid` in a list of
`SaleItem` rows. -/
def itemsSum (items : List SaleItem) (mid : Nat) : Int :=
  match items with
  | [] => 0
  | it :: rest =>
    (if it.medicine_id == mid then it.quantity else 0) + itemsSum rest mid

/-- Quantity of medicine `mid` currently held by sale `sid`'s items. -/
def saleQty (items : List SaleItem) (sid mid : Nat) : Int :=
  match items with
  | [] => 0
  | it :: rest =>
    (if it.sale_id == sid && it.medicine_id == mid then it.quantity else 0)
      + saleQty rest sid mid

/-- The auto-increment pk counter is ahead of every stored row (true of
every database state Django produces). -/
def FreshSaleId (db : DB) : Prop :=
  (∀ s ∈ db.sales, s.id ≠ db.nextSaleId) ∧
  (∀ it ∈ db.saleItems, it.sale_id ≠ db.nextSaleId)

/-- Every medicine row stores a non-negative quantity (the
`PositiveIntegerField` invariant of `Medicine.quantity`). -/
def MedsNonneg (db : DB) : Prop :=
  ∀ m ∈ db.medicines, 0 ≤ m.quantity

instance : DecidablePred (fun db => FreshSaleId db) := by
  intro db
  unfold FreshSaleId
  infer_instance

instance : DecidablePred (fun db => MedsNonneg db) := by
  intro db
  unfold MedsNonneg
  infer_instance

theorem medSave_ok {ms ms' : List Medicine} {mid : Nat} {q : Int}
    (h : medSave ms mid q = .ok ms') : ms' = updateQty ms mid q ∧ 0 ≤ q := by
  unfold medSave at h
  by_cases hq : q < 0
  · rw [if_pos hq] at h
    simp at h
  · rw [if_neg hq] at h
    exact ⟨(Except.ok.injEq _ _).mp h |>.symm, by omega⟩

theorem medSave_ok_of_nonneg {ms : List Medicine} {mid : Nat} {q : Int}
    (hq : 0 ≤ q) : medSave ms mid q = .ok (updateQty ms mid q) := by
  unfold medSave
  rw [if_neg (by omega)]

theorem findMedicine_updateQty_self (ms : List Medicine) (mid : Nat) (q : Int) :
    findMedicine (updateQty ms mid q) mid =
      (findMedicine ms mid).map (fun m => { m with quantity := q }) := by
  induction ms with
  | nil => rfl
  | cons m0 rest ih =>
    unfold updateQty findMedicine
    by_cases h : m0.id = mid
    · rw [if_pos (by simpa using h)]
      rw [List.find?_cons_of_pos _ (by simpa using h),
          List.find?_cons_of_pos _ (by simpa using h)]
      rfl
    · rw [if_neg (by simpa using h)]
      rw [List.find?_cons_of_neg _ (by simpa using h),
          List.find?_cons_of_neg _ (by simpa using h)]
      exact ih

theorem findMedicine_updateQty_ne (ms : List Medicine) {mid mid' : Nat}
    (q : Int) (h : mid' ≠ mid) :
    findMedicine (updateQty ms mid q) mid' = findMedicine ms mid' := by
  induction ms with
  | nil => rfl
  | cons m0 rest ih =>
    unfold updateQty findMedicine
    by_cases h0 : m0.id = mid
    · have hne : ¬ (m0.id = mid') := by omega
      rw [if_pos (by simpa using h0)]
      rw [List.find?_cons_of_neg _ (by simpa using hne),
          List.find?_cons_of_neg _ (by simpa using hne)]
      exact ih
    · rw [if_neg (by simpa using h0)]
      by_cases h1 : m0.id = mid'
      · rw [List.find?_cons_of_pos _ (by simpa using h1),
            List.find?_cons_of_pos _ (by simpa using h1)]
      · rw [List.find?_cons_of_neg _ (by simpa using h1),
            List.find?_cons_of_neg _ (by simpa using h1)]
        exact ih

theorem findMedicine_updateQty_isSome (ms : List Medicine) (mid mid' : Nat)
    (q : Int) :
    (findMedicine (updateQty ms mid q) mid').isSome
      = (findMedicine ms mid').isSome := by
  by_cases h : mid' = mid
  · subst h
    rw [findMedicine_updateQty_self]
    cases findMedicine ms mid' <;> rfl
  · rw [findMedicine_updateQty_ne ms q h]

theorem stockOf_updateQty_self {ms : List Medicine} {mid : Nat} {m : Medicine}
    (q : Int) (h : findMedicine ms mid = some m) :
    stockOf (updateQty ms mid q) mid = q := by
  unfold stockOf
  rw [findMedicine_updateQty_self, h]
  rfl

theorem stockOf_updateQty_ne (ms : List Medicine) {mid mid' : Nat} (q : Int)
    (h : mid' ≠ mid) :
    stockOf (updateQty ms mid q) mid' = stockOf ms mid' := by
  unfold stockOf
  rw [findMedicine_updateQty_ne ms q h]

theorem stockOf_eq_of_find {ms : List Medicine} {mid : Nat} {m : Medicine}
    (h : findMedicine ms mid = some m) : stockOf ms mid = m.quantity := by
  unfold stockOf
  rw [h]

theorem updateQty_nonneg {ms : List Medicine} {mid : Nat} {q : Int}
    (hms : ∀ m ∈ ms, 0 ≤ m.quantity) (hq : 0 ≤ q) :
    ∀ m ∈ updateQty ms mid q, 0 ≤ m.quantity := by
  induction ms with
  | nil => intro m hm; cases hm
  | cons m0 rest ih =>
    intro m hm
    unfold updateQty at hm
    rw [List.mem_cons] at hm
    rcases hm with hm | hm
    · by_cases h0 : m0.id = mid
      · rw [if_pos (by simpa using h0)] at hm
        subst hm
        exact hq
      · rw [if_neg (by simpa using h0)] at hm
        subst hm
        exact hms _ (List.mem_cons_self _ _)
    · exact ih (fun m hm => hms m (List.mem_cons_of_mem _ hm)) m hm

theorem restoreItems_stock {items : List SaleItem} {ms ms' : List Medicine}
    (h : restoreItems ms items = .ok ms') (mid : Nat) :
    stockOf ms' mid = stockOf ms mid + itemsSum items mid := by
  induction items generalizing ms with
  | nil =>
    unfold restoreItems at h
    simp at h
    rw [h]
    unfold itemsSum
    omega
  | cons it rest ih =>
    unfold restoreItems at h
    cases hf : findMedicine ms it.medicine_id with
    | none => simp only [hf] at h; simp at h
    | some m =>
      simp only [hf] at h
      cases hsv : medSave ms it.medicine_id (m.quantity + it.quantity) with
      | error e => simp only [hsv] at h; simp at h
      | ok ms1 =>
        simp only [hsv] at h
        obtain ⟨hup, _⟩ := medSave_ok hsv
        have hrec := ih h
        unfold itemsSum
        by_cases hmid : it.medicine_id = mid
        · subst hmid
          rw [hrec, hup, stockOf_updateQty_self _ hf, stockOf_eq_of_find hf]
          simp
          omega
        · rw [hrec, hup,
              stockOf_updateQty_ne _ _ (fun hc => hmid hc.symm)]
          rw [if_neg (by simpa using hmid)]
          omega

theorem restoreItems_find {items : List SaleItem} {ms ms' : List Medicine}
    (h : restoreItems ms items = .ok ms') (mid : Nat) :
    (findMedicine ms' mid).isSome = (findMedicine ms mid).isSome := by
  induction items generalizing ms with
  | nil =>
    unfold restoreItems at h
    simp at h
    rw [h]
  | cons it rest ih =>
    unfold restoreItems at h
    cases hf : findMedicine ms it.medicine_id with
    | none => simp only [hf] at h; simp at h
    | some m =>
      simp only [hf] at h
      cases hsv : medSave ms it.medicine_id (m.quantity + it.quantity) with
      | error e => simp only [hsv] at h; simp at h
      | ok ms1 =>
        simp only [hsv] at h
        obtain ⟨hup, _⟩ := medSave_ok hsv
        rw [ih h, hup, findMedicine_updateQty_isSome]

theorem restoreItems_nonneg {items : List SaleItem} {ms ms' : List Medicine}
    (h : restoreItems ms items = .ok ms')
    (hms : ∀ m ∈ ms, 0 ≤ m.quantity) : ∀ m ∈ ms', 0 ≤ m.quantity := by
  induction items generalizing ms with
  | nil =>
    unfold restoreItems at h
    simp at h
    rw [← h]
    exact hms
  | cons it rest ih =>
    unfold restoreItems at h
    cases hf : findMedicine ms it.medicine_id with
    | none => simp only [hf] at h; simp at h
    | some m =>
      simp only [hf] at h
      cases hsv : medSave ms it.medicine_id (m.quantity + it.quantity) with
      | error e => simp only [hsv] at h; simp at h
      | ok ms1 =>
        simp only [hsv] at h
        obtain ⟨hup, hq⟩ := medSave_ok hsv
        exact ih h (hup ▸ updateQty_nonneg hms hq)

theorem applyCart_stock {cart : List CartLine} {sid : Nat}
    {ms ms' : List Medicine} {items : List SaleItem}
    (h : applyCart sid ms cart = .ok (ms', items)) (mid : Nat) :
    stockOf ms' mid = stockOf ms mid - cartSum cart mid := by
  induction cart generalizing ms items with
  | nil =>
    unfold applyCart at h
    simp at h
    rw [h.1]
    unfold cartSum
    omega
  | cons l rest ih =>
    unfold applyCart at h
    cases hf : findMedicine ms l.id with
    | none => simp only [hf] at h; simp at h
    | some m =>
      simp only [hf] at h
      by_cases hlt : m.quantity < l.quantity
      · simp only [if_pos hlt] at h; simp at h
      · simp only [if_neg hlt] at h
        by_cases hneg : l.quantity < 0
        · simp only [if_pos hneg] at h; simp at h
        · simp only [if_neg hneg] at h
          cases hsv : medSave ms l.id (m.quantity - l.quantity) with
          | error e => simp only [hsv] at h; simp at h
          | ok ms1 =>
            simp only [hsv] at h
            cases hrec : applyCart sid ms1 rest with
            | error e => simp only [hrec] at h; simp at h
            | ok pr =>
              obtain ⟨ms2, items2⟩ := pr
              simp only [hrec] at h
              simp at h
              obtain ⟨hms2, hitems⟩ := h
              subst hms2
              obtain ⟨hup, _⟩ := medSave_ok hsv
              have hihs := ih hrec
              unfold cartSum
              by_cases hmid : l.id = mid
              · subst hmid
                rw [hihs, hup, stockOf_updateQty_self _ hf,
                    stockOf_eq_of_find hf]
                simp
                omega
              · rw [hihs, hup,
                    stockOf_updateQty_ne _ _ (fun hc => hmid hc.symm)]
                rw [if_neg (by simpa using hmid)]
                omega

theorem applyCart_items {cart : List CartLine} {sid : Nat}
    {ms ms' : List Medicine} {items : List SaleItem}
    (h : applyCart sid ms cart = .ok (ms', items)) :
    items = cartItems sid cart := by
  induction cart generalizing ms items with
  | nil =>
    unfold applyCart at h
    simp at h
    rw [h.2]
    rfl
  | cons l rest ih =>
    unfold applyCart at h
    cases hf : findMedicine ms l.id with
    | none => simp only [hf] at h; simp at h
    | some m =>
      simp only [hf] at h
      by_cases hlt : m.quantity < l.quantity
      · simp only [if_pos hlt] at h; simp at h
      · simp only [if_neg hlt] at h
        by_cases hneg : l.quantity < 0
        · simp only [if_pos hneg] at h; simp at h
        · simp only [if_neg hneg] at h
          cases hsv : medSave ms l.id (m.quantity - l.quantity) with
          | error e => simp only [hsv] at h; simp at h
          | ok ms1 =>
            simp only [hsv] at h
            cases hrec : applyCart sid ms1 rest with
            | error e => simp only [hrec] at h; simp at h
            | ok pr =>
              obtain ⟨ms2, items2⟩ := pr
              simp only [hrec] at h
              simp at h
              obtain ⟨hms2, hitems⟩ := h
              subst hms2
              rw [← hitems]
              unfold cartItems
              rw [ih hrec]

theorem applyCart_isOk_eq_fits (sid : Nat) (ms : List Medicine)
    (cart : List CartLine) :
    (applyCart sid ms cart).isOk = cartFits ms cart := by
  induction cart generalizing ms with
  | nil => rfl
  | cons l rest ih =>
    unfold applyCart cartFits
    cases hf : findMedicine ms l.id with
    | none => simp only [hf]; rfl
    | some m =>
      simp only [hf]
      by_cases hlt : m.quantity < l.quantity
      · simp only [if_pos hlt]; rfl
      · simp only [if_neg hlt]
        by_cases hneg : l.quantity < 0
        · simp only [if_pos hneg]; rfl
        · simp only [if_neg hneg,
            medSave_ok_of_nonneg
              (show (0 : Int) ≤ m.quantity - l.quantity by omega)]
          cases hrec : applyCart sid (updateQty ms l.id (m.quantity - l.quantity)) rest with
          | error e =>
            simp only [hrec]
            rw [← ih, hrec]
          | ok pr =>
            obtain ⟨a, b⟩ := pr
            simp only [hrec]
            rw [← ih, hrec]
            rfl

theorem applyCart_ok_find {cart : List CartLine} {sid : Nat}
    {ms : List Medicine} {r : List Medicine × List SaleItem}
    (h : applyCart sid ms cart = .ok r) :
    ∀ l ∈ cart, (findMedicine ms l.id).isSome = true := by
  induction cart generalizing ms r with
  | nil => intro l hl; cases hl
  | cons l0 rest ih =>
    unfold applyCart at h
    cases hf : findMedicine ms l0.id with
    | none => simp only [hf] at h; simp at h
    | some m =>
      simp only [hf] at h
      by_cases hlt : m.quantity < l0.quantity
      · simp only [if_pos hlt] at h; simp at h
      · simp only [if_neg hlt] at h
        by_cases hneg : l0.quantity < 0
        · simp only [if_pos hneg] at h; simp at h
        · simp only [if_neg hneg] at h
          cases hsv : medSave ms l0.id (m.quantity - l0.quantity) with
          | error e => simp only [hsv] at h; simp at h
          | ok ms1 =>
            simp only [hsv] at h
            cases hrec : applyCart sid ms1 rest with
            | error e => simp only [hrec] at h; simp at h
            | ok pr =>
              intro l hl
              rw [List.mem_cons] at hl
              rcases hl with rfl | hl
              · rw [hf]; rfl
              · have hin := ih hrec l hl
                obtain ⟨hup, _⟩ := medSave_ok hsv
                rw [hup] at hin
                rw [← findMedicine_updateQty_isSome ms l0.id l.id
                      (m.quantity - l0.quantity)]
                exact hin

theorem applyCart_ok_qty_nonneg {cart : List CartLine} {sid : Nat}
    {ms : List Medicine} {r : List Medicine × List SaleItem}
    (h : applyCart sid ms cart = .ok r) :
    ∀ l ∈ cart, 0 ≤ l.quantity := by
  induction cart generalizing ms r with
  | nil => intro l hl; cases hl
  | cons l0 rest ih =>
    unfold applyCart at h
    cases hf : findMedicine ms l0.id with
    | none => simp only [hf] at h; simp at h
    | some m =>
      simp only [hf] at h
      by_cases hlt : m.quantity < l0.quantity
      · simp only [if_pos hlt] at h; simp at h
      · simp only [if_neg hlt] at h
        by_cases hneg : l0.quantity < 0
        · simp only [if_pos hneg] at h; simp at h
        · simp only [if_neg hneg] at h
          cases hsv : medSave ms l0.id (m.quantity - l0.quantity) with
          | error e => simp only [hsv] at h; simp at h
          | ok ms1 =>
            simp only [hsv] at h
            cases hrec : applyCart sid ms1 rest with
            | error e => simp only [hrec] at h; simp at h
            | ok pr =>
              intro l hl
              rw [List.mem_cons] at hl
              rcases hl with rfl | hl
              · omega
              · exact ih hrec l hl

theorem applyCart_nonneg {cart : List CartLine} {sid : Nat}
    {ms ms' : List Medicine} {items : List SaleItem}
    (h : applyCart sid ms cart = .ok (ms', items))
    (hms : ∀ m ∈ ms, 0 ≤ m.quantity) : ∀ m ∈ ms', 0 ≤ m.quantity := by
  induction cart generalizing ms items with
  | nil =>
    unfold applyCart at h
    simp at h
    rw [← h.1]
    exact hms
  | cons l rest ih =>
    unfold applyCart at h
    cases hf : findMedicine ms l.id with
    | none => simp only [hf] at h; simp at h
    | some m =>
      simp only [hf] at h
      by_cases hlt : m.quantity < l.quantity
      · simp only [if_pos hlt] at h; simp at h
      · simp only [if_neg hlt] at h
        by_cases hneg : l.quantity < 0
        · simp only [if_pos hneg] at h; simp at h
        · simp only [if_neg hneg] at h
          cases hsv : medSave ms l.id (m.quantity - l.quantity) with
          | error e => simp only [hsv] at h; simp at h
          | ok ms1 =>
            simp only [hsv] at h
            cases hrec : applyCart sid ms1 rest with
            | error e => simp only [hrec] at h; simp at h
            | ok pr =>
              obtain ⟨ms2, items2⟩ := pr
              simp only [hrec] at h
              simp at h
              obtain ⟨hms2, _⟩ := h
              subst hms2
              obtain ⟨hup, hq⟩ := medSave_ok hsv
              exact ih hrec (hup ▸ updateQty_nonneg hms hq)

theorem applyCart_insufficient {cart : List CartLine} {ms : List Medicine}
    (sid : Nat)
    (hex : ∀ l ∈ cart, (findMedicine ms l.id).isSome = true ∧ 0 ≤ l.quantity)
    (hfits : cartFits ms cart = false) :
    ∃ mid, applyCart sid ms cart = .error (.InsufficientStock mid) := by
  induction cart generalizing ms with
  | nil => unfold cartFits at hfits; simp at hfits
  | cons l rest ih =>
    obtain ⟨hfnd, hq⟩ := hex l (List.mem_cons_self _ _)
    cases hf : findMedicine ms l.id with
    | none => rw [hf] at hfnd; simp at hfnd
    | some m =>
      unfold cartFits at hfits
      simp only [hf] at hfits
      unfold applyCart
      simp only [hf]
      by_cases hlt : m.quantity < l.quantity
      · exact ⟨l.id, by simp only [if_pos hlt]⟩
      · simp only [if_neg hlt] at hfits ⊢
        rw [if_neg (show ¬ l.quantity < 0 by omega)] at hfits
        rw [if_neg (show ¬ l.quantity < 0 by omega)]
        simp only [medSave_ok_of_nonneg
          (show (0 : Int) ≤ m.quantity - l.quantity by omega)]
        have hex' : ∀ l' ∈ rest,
            (findMedicine (updateQty ms l.id (m.quantity - l.quantity)) l'.id).isSome = true
              ∧ 0 ≤ l'.quantity := by
          intro l' hl'
          obtain ⟨h1, h2⟩ := hex l' (List.mem_cons_of_mem _ hl')
          exact ⟨by rw [findMedicine_updateQty_isSome]; exact h1, h2⟩
        obtain ⟨mid, hmid⟩ := ih hex' hfits
        exact ⟨mid, by simp only [hmid]⟩

theorem itemsTotal_append (a b : List SaleItem) (sid : Nat) :
    itemsTotal (a ++ b) sid = itemsTotal a sid + itemsTotal b sid := by
  induction a with
  | nil => simp [itemsTotal]
  | cons it rest ih =>
    rw [List.cons_append,
        show itemsTotal (it :: (rest ++ b)) sid
            = (if it.sale_id == sid then it.quantity * it.price_at_sale else 0)
              + itemsTotal (rest ++ b) sid from rfl,
        show itemsTotal (it :: rest) sid
            = (if it.sale_id == sid then it.quantity * it.price_at_sale else 0)
              + itemsTotal rest sid from rfl,
        ih]
    omega

theorem itemsTotal_zero {a : List SaleItem} {sid : Nat}
    (h : ∀ it ∈ a, it.sale_id ≠ sid) : itemsTotal a sid = 0 := by
  induction a with
  | nil => rfl
  | cons it rest ih =>
    unfold itemsTotal
    rw [if_neg (by simpa using h it (List.mem_cons_self _ _)),
        ih (fun it' hit => h it' (List.mem_cons_of_mem _ hit))]
    omega

theorem itemsTotal_cartItems (cart : List CartLine) (sid : Nat) :
    itemsTotal (cartItems sid cart) sid = cartMoney cart := by
  induction cart with
  | nil => rfl
  | cons l rest ih =>
    unfold cartItems itemsTotal cartMoney
    rw [if_pos (by simp), ih]

theorem itemsSum_filter_sale (items : List SaleItem) (sid mid : Nat) :
    itemsSum (items.filter (fun it => it.sale_id == sid)) mid
      = saleQty items sid mid := by
  induction items with
  | nil => rfl
  | cons it rest ih =>
    rw [List.filter_cons]
    by_cases h : it.sale_id = sid
    · rw [if_pos (by simpa using h)]
      unfold itemsSum saleQty
      rw [ih, show (it.sale_id == sid && it.medicine_id == mid)
            = (it.medicine_id == mid) by simp [h]]
    · unfold saleQty
      rw [if_neg (by simpa using h), ih,
          show (it.sale_id == sid && it.medicine_id == mid) = false by simp [h]]
      simp

theorem findSale_none {l : List Sale} {sid : Nat}
    (h : ∀ s ∈ l, s.id ≠ sid) : findSale l sid = none := by
  induction l with
  | nil => rfl
  | cons s rest ih =>
    unfold findSale
    rw [List.find?_cons_of_neg _
        (by simpa using h s (List.mem_cons_self _ _))]
    exact ih (fun s' hs => h s' (List.mem_cons_of_mem _ hs))

theorem findSale_append {l l' : List Sale} {sid : Nat}
    (h : findSale l sid = none) :
    findSale (l ++ l') sid = findSale l' sid := by
  induction l with
  | nil => rfl
  | cons s rest ih =>
    unfold findSale at h ⊢
    rw [List.cons_append]
    by_cases hs : s.id = sid
    · rw [List.find?_cons_of_pos _ (by simpa using hs)] at h
      simp at h
    · rw [List.find?_cons_of_neg _ (by simpa using hs)] at h
      rw [List.find?_cons_of_neg _ (by simpa using hs)]
      exact ih h

theorem findSale_setFields (sales : List Sale) (sid : Nat) (req : PosRequest)
    (actor : Nat) :
    findSale (setFields sales sid req actor) sid
      = (findSale sales sid).map (applyReqFields req actor) := by
  induction sales with
  | nil => rfl
  | cons s rest ih =>
    unfold setFields findSale
    by_cases hs : s.id = sid
    · rw [if_pos (by simpa using hs)]
      rw [List.find?_cons_of_pos _ (by simpa using hs),
          List.find?_cons_of_pos _ (by simpa using hs)]
      rfl
    · rw [if_neg (by simpa using hs)]
      rw [List.find?_cons_of_neg _ (by simpa using hs),
          List.find?_cons_of_neg _ (by simpa using hs)]
      exact ih

theorem findSale_update_total (sales : List Sale) (items : List SaleItem)
    (sid : Nat) :
    findSale (update_total sales items sid) sid
      = (findSale sales sid).map
          (fun s => { s with total_amount := itemsTotal items sid + s.delivery_fee }) := by
  induction sales with
  | nil => rfl
  | cons s rest ih =>
    unfold update_total findSale
    by_cases hs : s.id = sid
    · rw [if_pos (by simpa using hs)]
      rw [List.find?_cons_of_pos _ (by simpa using hs),
          List.find?_cons_of_pos _ (by simpa using hs)]
      rfl
    · rw [if_neg (by simpa using hs)]
      rw [List.find?_cons_of_neg _ (by simpa using hs),
          List.find?_cons_of_neg _ (by simpa using hs)]
      exact ih

theorem posPostState_of_error {db : DB} {req : PosRequest} {actor : Nat}
    {perm : Bool} {now : Nat} {e : PosError}
    (h : posPost db req actor perm now = .error e) :
    posPostState db req actor perm now = db := by
  unfold posPostState
  simp only [h]

theorem posPostState_of_ok {db db' : DB} {req : PosRequest} {actor : Nat}
    {perm : Bool} {now : Nat}
    (h : posPost db req actor perm now = .ok db') :
    posPostState db req actor perm now = db' := by
  unfold posPostState
  simp only [h]

theorem posPost_new_eq (db : DB) (req : PosRequest) (actor : Nat)
    (perm : Bool) (now : Nat) (hnew : req.sale_id = none) :
    posPost db req actor perm now
      = posStep234
          { db with sales := db.sales ++ [newSaleRecord db.nextSaleId now],
                    nextSaleId := db.nextSaleId + 1 }
          db.nextSaleId req actor := by
  unfold posPost posStep1
  simp only [hnew]
  rfl

theorem posPost_amend_eq (db : DB) (req : PosRequest) (actor : Nat)
    (now sid : Nat) (hsid : req.sale_id = some sid) (hnz : sid ≠ 0) :
    posPost db req actor true now
      = match posStepAmend db sid with
        | .error e => .error e
        | .ok (db1, sid1) => posStep234 db1 sid1 req actor := by
  have hcond : (sid != 0 && true) = true := by simp [hnz]
  unfold posPost posStep1
  simp only [hsid, hcond, if_true]

theorem posStep234_ok {db1 db' : DB} {sid : Nat} {req : PosRequest}
    {actor : Nat} (h : posStep234 db1 sid req actor = .ok db') :
    ∃ ms' newItems,
      applyCart sid db1.medicines req.cart = .ok (ms', newItems) ∧
      db' = { medicines := ms',
              sales := update_total (setFields db1.sales sid req actor)
                         (db1.saleItems ++ newItems) sid,
              saleItems := db1.saleItems ++ newItems,
              nextSaleId := db1.nextSaleId } := by
  unfold posStep234 at h
  cases hc : applyCart sid db1.medicines req.cart with
  | error e => simp only [hc] at h; simp at h
  | ok pr =>
    obtain ⟨ms', newItems⟩ := pr
    simp only [hc] at h
    simp at h
    exact ⟨ms', newItems, rfl, h.symm⟩

theorem posStep234_error_of_applyCart {db1 : DB} {sid : Nat}
    {req : PosRequest} {actor : Nat} {e : PosError}
    (h : applyCart sid db1.medicines req.cart = .error e) :
    posStep234 db1 sid req actor = .error e := by
  unfold posStep234
  simp only [h]

theorem posPost_ok_shape {db db' : DB} {req : PosRequest} {actor : Nat}
    {perm : Bool} {now : Nat}
    (h : posPost db req actor perm now = .ok db') :
    ∃ db1 sid, posStep1 db req perm now = .ok (db1, sid) ∧
      posStep234 db1 sid req actor = .ok db' := by
  unfold posPost at h
  cases h1 : posStep1 db req perm now with
  | error e => simp only [h1] at h; simp at h
  | ok pr =>
    obtain ⟨db1, sid⟩ := pr
    simp only [h1] at h
    exact ⟨db1, sid, rfl, h⟩

theorem posStep1_ok_cases {db db1 : DB} {req : PosRequest} {perm : Bool}
    {now : Nat} {sid : Nat}
    (h : posStep1 db req perm now = .ok (db1, sid)) :
    (db1 = (posStepNew db now).1 ∧ sid = db.nextSaleId) ∨
    ((findSale db.sales sid).isSome = true ∧
      ∃ ms1, restoreItems db.medicines
          (db.saleItems.filter (fun it => it.sale_id == sid)) = .ok ms1 ∧
        db1 = { db with medicines := ms1,
                        saleItems := db.saleItems.filter (fun it => it.sale_id != sid) }) := by
  unfold posStep1 at h
  cases hs : req.sale_id with
  | none =>
    simp only [hs] at h
    simp at h
    unfold posStepNew at h
    rw [Prod.mk.injEq] at h
    exact Or.inl ⟨h.1.symm, h.2.symm⟩
  | some sid0 =>
    simp only [hs] at h
    by_cases hc : (sid0 != 0 && perm) = true
    · rw [if_pos hc] at h
      unfold posStepAmend at h
      cases hfs : findSale db.sales sid0 with
      | none => simp only [hfs] at h; simp at h
      | some s =>
        simp only [hfs] at h
        cases hr : restoreItems db.medicines
            (db.saleItems.filter (fun it => it.sale_id == sid0)) with
        | error e => simp only [hr] at h; simp at h
        | ok ms1 =>
          simp only [hr] at h
          simp at h
          obtain ⟨hdb1, hsid⟩ := h
          subst hsid
          refine Or.inr ⟨by rw [hfs]; rfl, ms1, hr, ?_⟩
          exact hdb1.symm
    · rw [if_neg hc] at h
      simp at h
      unfold posStepNew at h
      rw [Prod.mk.injEq] at h
      exact Or.inl ⟨h.1.symm, h.2.symm⟩

/-- C1: for every cart accepted by `apply` (a POST without `sale_id`),
each medicine's stock decreases by exactly the summed quantity the cart
requests for it (unreferenced medicines are unchanged, their cart sum
being 0), and the created sale's `total_amount` is the sum of the
items' subtotals (`quantity * price_at_sale`) plus the delivery fee.
The spec's concrete scenario (stock 10, one line of 3 at 500, fee 100,
giving stock 7 and total 1600) is the witness instance. -/
theorem C1_apply_stock_and_total (db db' : DB) (req : PosRequest)
    (actor : Nat) (perm : Bool) (now : Nat)
    (hfresh : FreshSaleId db) (hnew : req.sale_id = none)
    (hok : posPost db req actor perm now = .ok db') :
    (∀ mid, stockOf db'.medicines mid
        = stockOf db.medicines mid - cartSum req.cart mid) ∧
    ∃ s, findSale db'.sales db.nextSaleId = some s ∧
      s.total_amount = cartMoney req.cart + req.delivery_fee := by
  rw [posPost_new_eq db req actor perm now hnew] at hok
  obtain ⟨ms', newItems, hcart, hdb'⟩ := posStep234_ok hok
  dsimp only at hcart hdb'
  constructor
  · intro mid
    rw [hdb']
    exact applyCart_stock hcart mid
  · rw [hdb']
    dsimp only
    rw [findSale_update_total, findSale_setFields,
        findSale_append (findSale_none hfresh.1),
        show findSale [newSaleRecord db.nextSaleId now] db.nextSaleId
            = some (newSaleRecord db.nextSaleId now) from by
          unfold findSale
          rw [List.find?_cons_of_pos _ (by simp [newSaleRecord])]]
    refine ⟨_, rfl, ?_⟩
    have hni : newItems = cartItems db.nextSaleId req.cart :=
      applyCart_items hcart
    dsimp only [applyReqFields, newSaleRecord]
    rw [hni, itemsTotal_append, itemsTotal_zero hfresh.2,
        itemsTotal_cartItems]
    omega

/-- Witness for C1: the spec's concrete scenario — medicine 1 with
stock 10 and price 500, cart `[{id 1, qty 3, price 500}]`, delivery fee
100 — ends with stock 7 and `total_amount` 1600. -/
theorem C1_witness :
    stockOf (posPostState ⟨[⟨1, 10, 500, true⟩], [], [], 1⟩
        ⟨[⟨1, 3, 500⟩], 100, "", "", "", none⟩ 7 false 5).medicines 1 = 7 ∧
    ∃ s, findSale (posPostState ⟨[⟨1, 10, 500, true⟩], [], [], 1⟩
        ⟨[⟨1, 3, 500⟩], 100, "", "", "", none⟩ 7 false 5).sales 1 = some s ∧
      s.total_amount = 1600 := by
  have hok : posPost (⟨[⟨1, 10, 500, true⟩], [], [], 1⟩ : DB)
      (⟨[⟨1, 3, 500⟩], 100, "", "", "", none⟩ : PosRequest) 7 false 5
      = .ok (posPostState ⟨[⟨1, 10, 500, true⟩], [], [], 1⟩
          ⟨[⟨1, 3, 500⟩], 100, "", "", "", none⟩ 7 false 5) := by rfl
  have h := C1_apply_stock_and_total _ _ _ 7 false 5 (by decide) rfl hok
  refine ⟨?_, ?_⟩
  · have h1 := h.1 1
    rw [h1]
    decide
  · obtain ⟨s, hs, ht⟩ := h.2
    exact ⟨s, hs, by rw [ht]; decide⟩

/-- C2: a cart that references only existing medicines with
non-negative quantities but fails the cumulative per-line stock check
makes `apply` raise `InsufficientStock`, and the whole transaction rolls
back: the database (every medicine quantity, every sale, every item) is
exactly the prior state. -/
theorem C2_insufficient_stock_rollback (db : DB) (req : PosRequest)
    (actor now : Nat) (perm : Bool)
    (hnew : req.sale_id = none)
    (hex : ∀ l ∈ req.cart,
      (findMedicine db.medicines l.id).isSome = true ∧ 0 ≤ l.quantity)
    (hfits : cartFits db.medicines req.cart = false) :
    (∃ mid, posPost db req actor perm now
        = .error (.InsufficientStock mid)) ∧
    posPostState db req actor perm now = db := by
  obtain ⟨mid, hmid⟩ := applyCart_insufficient db.nextSaleId hex hfits
  have herr : posPost db req actor perm now
      = .error (.InsufficientStock mid) := by
    rw [posPost_new_eq db req actor perm now hnew]
    exact posStep234_error_of_applyCart hmid
  exact ⟨⟨mid, herr⟩, posPostState_of_error herr⟩

/-- Witness for C2: the spec's concrete scenario — medicine 2 with
stock 2, cart `[{id 2, qty 5, price 100}]` — fails with
`InsufficientStock` and the database is unchanged (stock still 2, no
sale persisted). -/
theorem C2_witness :
    (∃ mid, posPost ⟨[⟨2, 2, 100, true⟩], [], [], 1⟩
        ⟨[⟨2, 5, 100⟩], 0, "", "", "", none⟩ 1 false 0
        = .error (.InsufficientStock mid)) ∧
    posPostState ⟨[⟨2, 2, 100, true⟩], [], [], 1⟩
        ⟨[⟨2, 5, 100⟩], 0, "", "", "", none⟩ 1 false 0
      = ⟨[⟨2, 2, 100, true⟩], [], [], 1⟩ := by
  exact C2_insufficient_stock_rollback _ _ 1 0 false rfl (by decide) (by decide)

theorem posStepAmend_ok {db db1 : DB} {sid sid1 : Nat}
    (h : posStepAmend db sid = .ok (db1, sid1)) :
    sid1 = sid ∧ (findSale db.sales sid).isSome = true ∧
    ∃ ms1, restoreItems db.medicines
        (db.saleItems.filter (fun it => it.sale_id == sid)) = .ok ms1 ∧
      db1 = { db with medicines := ms1,
                      saleItems := db.saleItems.filter (fun it => it.sale_id != sid) } := by
  unfold posStepAmend at h
  cases hfs : findSale db.sales sid with
  | none => simp only [hfs] at h; simp at h
  | some s =>
    simp only [hfs] at h
    cases hr : restoreItems db.medicines
        (db.saleItems.filter (fun it => it.sale_id == sid)) with
    | error e => simp only [hr] at h; simp at h
    | ok ms1 =>
      simp only [hr] at h
      simp at h
      obtain ⟨hdb1, hsid1⟩ := h
      exact ⟨hsid1.symm, rfl, ms1, rfl, hdb1.symm⟩

/-- C3: amending an existing sale first restores the sale's old item
quantities to stock and deletes those items, then reapplies the new
cart — on success every medicine's stock is
`old stock + previously held by the sale - newly requested` — and the
whole sequence is atomic: any error (in particular a stock
insufficiency during reapplication) rolls the restoration back too,
leaving the database exactly as before the amend attempt. -/
theorem C3_amend_atomic (db : DB) (req : PosRequest) (actor now sid : Nat)
    (hsid : req.sale_id = some sid) (hnz : sid ≠ 0)
    (hs : (findSale db.sales sid).isSome = true) :
    (∀ e, posPost db req actor true now = .error e →
        posPostState db req actor true now = db) ∧
    (∀ db', posPost db req actor true now = .ok db' →
        ∀ mid, stockOf db'.medicines mid
          = stockOf db.medicines mid + saleQty db.saleItems sid mid
            - cartSum req.cart mid) := by
  constructor
  · intro e he
    exact posPostState_of_error he
  · intro db' hok mid
    rw [posPost_amend_eq db req actor now sid hsid hnz] at hok
    cases ha : posStepAmend db sid with
    | error e => simp only [ha] at hok; simp at hok
    | ok pr =>
      obtain ⟨db1, sid1⟩ := pr
      simp only [ha] at hok
      obtain ⟨hsid1, _, ms1, hrest, hdb1⟩ := posStepAmend_ok ha
      subst hsid1
      obtain ⟨ms', newItems, hcart, hdb'⟩ := posStep234_ok hok
      rw [hdb']
      dsimp only
      rw [hdb1] at hcart
      dsimp only at hcart
      have h1 := applyCart_stock hcart mid
      have h2 := restoreItems_stock hrest mid
      rw [h1, h2, itemsSum_filter_sale]

/-- Witness for C3's atomicity part: an amend whose reapplication fails
(stock 0, the sale previously held 2, the new cart wants 9) leaves the
database — the original sale row, its item, and the stock — exactly as
it was. -/
theorem C3_witness :
    posPostState ⟨[⟨1, 0, 100, true⟩], [⟨1, 0, some 1, 0, 200, "", "", ""⟩],
        [⟨1, 1, 2, 100⟩], 2⟩
      ⟨[⟨1, 9, 100⟩], 0, "", "", "", some 1⟩ 2 true 7
    = ⟨[⟨1, 0, 100, true⟩], [⟨1, 0, some 1, 0, 200, "", "", ""⟩],
        [⟨1, 1, 2, 100⟩], 2⟩ := by
  exact (C3_amend_atomic _ _ 2 7 1 rfl (by decide) (by decide)).1
    (.InsufficientStock 1) (by rfl)

/-- C10: a successful amend overwrites the sale's `created_by` with the
amending actor (`sale.created_by = request.user` runs on the amend path
too, views.py line 282) — the hypothesis places no constraint relating
`actor` to the sale's original creator — while `created_at` keeps its
original stored value (`default=timezone.now` is only applied at row
creation). -/
theorem C10_amend_overwrites_creator (db db' : DB) (req : PosRequest)
    (actor now sid : Nat) (s : Sale)
    (hsid : req.sale_id = some sid) (hnz : sid ≠ 0)
    (hs : findSale db.sales sid = some s)
    (hok : posPost db req actor true now = .ok db') :
    ∃ s', findSale db'.sales sid = some s' ∧ s'.created_by = some actor ∧
      s'.created_at = s.created_at := by
  rw [posPost_amend_eq db req actor now sid hsid hnz] at hok
  cases ha : posStepAmend db sid with
  | error e => simp only [ha] at hok; simp at hok
  | ok pr =>
    obtain ⟨db1, sid1⟩ := pr
    simp only [ha] at hok
    obtain ⟨hsid1, _, ms1, hrest, hdb1⟩ := posStepAmend_ok ha
    subst hsid1
    obtain ⟨ms', newItems, hcart, hdb'⟩ := posStep234_ok hok
    rw [hdb', hdb1]
    dsimp only
    rw [findSale_update_total, findSale_setFields, hs]
    exact ⟨_, rfl, rfl, rfl⟩

/-- Witness for C10: sale 1 was created by user 1 (`created_by = some
1`, `created_at = 33`); user 2 amends it with an empty cart; afterwards
`created_by = some 2` while `created_at` is still 33. -/
theorem C10_witness :
    ∃ s', findSale (posPostState ⟨[], [⟨1, 33, some 1, 5, 5, "", "", ""⟩], [], 2⟩
        ⟨[], 4, "", "", "", some 1⟩ 2 true 9).sales 1 = some s' ∧
      s'.created_by = some 2 ∧ s'.created_at = 33 := by
  have hok : posPost ⟨[], [⟨1, 33, some 1, 5, 5, "", "", ""⟩], [], 2⟩
      ⟨[], 4, "", "", "", some 1⟩ 2 true 9
      = .ok (posPostState ⟨[], [⟨1, 33, some 1, 5, 5, "", "", ""⟩], [], 2⟩
          ⟨[], 4, "", "", "", some 1⟩ 2 true 9) := by rfl
  exact C10_amend_overwrites_creator _ _ _ 2 9 1
    ⟨1, 33, some 1, 5, 5, "", "", ""⟩ rfl (by decide) (by rfl) hok

theorem posPost_new_isOk (db : DB) (req : PosRequest) (actor : Nat)
    (perm : Bool) (now : Nat) (hnew : req.sale_id = none) :
    (posPost db req actor perm now).isOk
      = (applyCart db.nextSaleId db.medicines req.cart).isOk := by
  rw [posPost_new_eq db req actor perm now hnew]
  unfold posStep234
  dsimp only
  cases hc : applyCart db.nextSaleId db.medicines req.cart with
  | error e => simp only [hc]; rfl
  | ok pr =>
    obtain ⟨a, b⟩ := pr
    simp only [hc]
    rfl

/-- C4: for a two-line cart on the same medicine (positive quantities,
starting stock `s`), lines are processed in cart order and the second
line's check runs against the stock already decremented by the first,
so the checks are cumulative: the apply succeeds exactly when
`q1 + q2 ≤ s`; otherwise it fails with `InsufficientStock`, and
whenever the first line alone fits (`q1 ≤ s`) that failure arises at
the second line — the one-line prefix cart succeeds on the same state. -/
theorem C4_cumulative_same_medicine (mid actor now nid : Nat)
    (s q1 q2 p1 p2 sp fee : Int) (act perm : Bool)
    (sales : List Sale) (items : List SaleItem)
    (h1 : 0 < q1) (h2 : 0 < q2) :
    ((posPost ⟨[⟨mid, s, sp, act⟩], sales, items, nid⟩
        ⟨[⟨mid, q1, p1⟩, ⟨mid, q2, p2⟩], fee, "", "", "", none⟩
        actor perm now).isOk = true ↔ q1 + q2 ≤ s) ∧
    (q1 ≤ s → s < q1 + q2 →
      posPost ⟨[⟨mid, s, sp, act⟩], sales, items, nid⟩
          ⟨[⟨mid, q1, p1⟩, ⟨mid, q2, p2⟩], fee, "", "", "", none⟩
          actor perm now
        = .error (.InsufficientStock mid) ∧
      (posPost ⟨[⟨mid, s, sp, act⟩], sales, items, nid⟩
          ⟨[⟨mid, q1, p1⟩], fee, "", "", "", none⟩
          actor perm now).isOk = true) := by
  have hfind : findMedicine [⟨mid, s, sp, act⟩] mid
      = some ⟨mid, s, sp, act⟩ := by
    unfold findMedicine
    rw [List.find?_cons_of_pos _ (by simp)]
  have hupd : ∀ v : Int, updateQty [(⟨mid, s, sp, act⟩ : Medicine)] mid v
      = [⟨mid, v, sp, act⟩] := by
    intro v
    unfold updateQty
    rw [if_pos (by simp)]
    rfl
  have hfind2 : ∀ v : Int, findMedicine [(⟨mid, v, sp, act⟩ : Medicine)] mid
      = some ⟨mid, v, sp, act⟩ := by
    intro v
    unfold findMedicine
    rw [List.find?_cons_of_pos _ (by simp)]
  constructor
  · rw [posPost_new_isOk _ _ _ _ _ rfl]
    dsimp only
    rw [applyCart_isOk_eq_fits]
    unfold cartFits
    simp only [hfind]
    by_cases ha : s < q1
    · rw [if_pos ha]
      constructor
      · intro hfalse; simp at hfalse
      · intro hle; omega
    · rw [if_neg ha, if_neg (show ¬ q1 < 0 by omega), hupd]
      unfold cartFits
      simp only [hfind2]
      by_cases hb : s - q1 < q2
      · rw [if_pos hb]
        constructor
        · intro hfalse; simp at hfalse
        · intro hle; omega
      · rw [if_neg hb, if_neg (show ¬ q2 < 0 by omega)]
        constructor
        · intro _; omega
        · intro _; rfl
  · intro hq1 hsum
    constructor
    · have herr : applyCart nid [(⟨mid, s, sp, act⟩ : Medicine)]
          [⟨mid, q1, p1⟩, ⟨mid, q2, p2⟩]
          = .error (.InsufficientStock mid) := by
        unfold applyCart
        simp only [hfind, if_neg (show ¬ s < q1 by omega),
          if_neg (show ¬ q1 < 0 by omega),
          medSave_ok_of_nonneg (show (0 : Int) ≤ s - q1 by omega), hupd]
        unfold applyCart
        simp only [hfind2, if_pos (show s - q1 < q2 by omega)]
      rw [posPost_new_eq _ _ _ _ _ rfl]
      exact posStep234_error_of_applyCart herr
    · rw [posPost_new_isOk _ _ _ _ _ rfl]
      dsimp only
      rw [applyCart_isOk_eq_fits]
      unfold cartFits
      simp only [hfind]
      rw [if_neg (show ¬ s < q1 by omega), if_neg (show ¬ q1 < 0 by omega)]
      rfl

/-- Witness for C4: stock 10, two lines of 6 and 5 on the same
medicine: the full cart fails with `InsufficientStock` (6 + 5 > 10,
detected at the second line) while the one-line prefix cart of 6 alone
succeeds. -/
theorem C4_witness :
    posPost ⟨[⟨1, 10, 0, true⟩], [], [], 1⟩
        ⟨[⟨1, 6, 1⟩, ⟨1, 5, 1⟩], 0, "", "", "", none⟩ 1 false 0
      = .error (.InsufficientStock 1) ∧
    (posPost ⟨[⟨1, 10, 0, true⟩], [], [], 1⟩
        ⟨[⟨1, 6, 1⟩], 0, "", "", "", none⟩ 1 false 0).isOk = true := by
  exact (C4_cumulative_same_medicine 1 1 0 1 10 6 5 1 1 0 0 true false [] []
    (by decide) (by decide)).2 (by decide) (by decide)

theorem posPost_ok_cart_found {db db' : DB} {req : PosRequest} {actor : Nat}
    {perm : Bool} {now : Nat}
    (hok : posPost db req actor perm now = .ok db') :
    ∀ l ∈ req.cart, (findMedicine db.medicines l.id).isSome = true := by
  obtain ⟨db1, sid, h1, h2⟩ := posPost_ok_shape hok
  obtain ⟨ms', newItems, hcart, _⟩ := posStep234_ok h2
  have hfound := applyCart_ok_find hcart
  rcases posStep1_ok_cases h1 with ⟨hdb1, _⟩ | ⟨_, ms1, hrest, hdb1⟩
  · intro l hl
    have hf := hfound l hl
    rw [hdb1] at hf
    dsimp only [posStepNew] at hf
    exact hf
  · intro l hl
    have hf := hfound l hl
    rw [hdb1] at hf
    dsimp only at hf
    rw [restoreItems_find hrest] at hf
    exact hf

theorem posPost_ok_cart_nonneg {db db' : DB} {req : PosRequest} {actor : Nat}
    {perm : Bool} {now : Nat}
    (hok : posPost db req actor perm now = .ok db') :
    ∀ l ∈ req.cart, 0 ≤ l.quantity := by
  obtain ⟨db1, sid, h1, h2⟩ := posPost_ok_shape hok
  obtain ⟨ms', newItems, hcart, _⟩ := posStep234_ok h2
  exact applyCart_ok_qty_nonneg hcart

theorem applyCart_find_pres {cart : List CartLine} {sid : Nat}
    {ms ms' : List Medicine} {items : List SaleItem}
    (h : applyCart sid ms cart = .ok (ms', items)) (mid : Nat) :
    (findMedicine ms' mid).isSome = (findMedicine ms mid).isSome := by
  induction cart generalizing ms items with
  | nil =>
    unfold applyCart at h
    simp at h
    rw [h.1]
  | cons l rest ih =>
    unfold applyCart at h
    cases hf : findMedicine ms l.id with
    | none => simp only [hf] at h; simp at h
    | some m =>
      simp only [hf] at h
      by_cases hlt : m.quantity < l.quantity
      · simp only [if_pos hlt] at h; simp at h
      · simp only [if_neg hlt] at h
        by_cases hneg : l.quantity < 0
        · simp only [if_pos hneg] at h; simp at h
        · simp only [if_neg hneg] at h
          cases hsv : medSave ms l.id (m.quantity - l.quantity) with
          | error e => simp only [hsv] at h; simp at h
          | ok ms1 =>
            simp only [hsv] at h
            cases hrec : applyCart sid ms1 rest with
            | error e => simp only [hrec] at h; simp at h
            | ok pr =>
              obtain ⟨ms2, items2⟩ := pr
              simp only [hrec] at h
              simp at h
              obtain ⟨hms2, _⟩ := h
              subst hms2
              obtain ⟨hup, _⟩ := medSave_ok hsv
              rw [ih hrec, hup, findMedicine_updateQty_isSome]

theorem applyCart_append_error {pre rest : List CartLine} {sid : Nat}
    {ms ms1 : List Medicine} {items1 : List SaleItem} {e : PosError}
    (hpre : applyCart sid ms pre = .ok (ms1, items1))
    (herr : applyCart sid ms1 rest = .error e) :
    applyCart sid ms (pre ++ rest) = .error e := by
  induction pre generalizing ms items1 with
  | nil =>
    unfold applyCart at hpre
    simp at hpre
    obtain ⟨h1, _⟩ := hpre
    subst h1
    rw [List.nil_append]
    exact herr
  | cons p pre' ih =>
    rw [List.cons_append]
    unfold applyCart at hpre ⊢
    cases hf : findMedicine ms p.id with
    | none => simp only [hf] at hpre; simp at hpre
    | some m =>
      simp only [hf] at hpre ⊢
      by_cases hlt : m.quantity < p.quantity
      · simp only [if_pos hlt] at hpre; simp at hpre
      · simp only [if_neg hlt] at hpre ⊢
        by_cases hneg : p.quantity < 0
        · simp only [if_pos hneg] at hpre; simp at hpre
        · simp only [if_neg hneg] at hpre ⊢
          cases hsv : medSave ms p.id (m.quantity - p.quantity) with
          | error e2 => simp only [hsv] at hpre; simp at hpre
          | ok ms2 =>
            simp only [hsv] at hpre ⊢
            cases hrec : applyCart sid ms2 pre' with
            | error e2 => simp only [hrec] at hpre; simp at hpre
            | ok pr =>
              obtain ⟨ms3, items3⟩ := pr
              simp only [hrec] at hpre
              simp at hpre
              obtain ⟨hms3, _⟩ := hpre
              subst hms3
              rw [ih hrec]

theorem applyCart_ok_of_fits {ms : List Medicine} {cart : List CartLine}
    {sid : Nat} (h : cartFits ms cart = true) :
    ∃ ms' items, applyCart sid ms cart = .ok (ms', items) := by
  have hiso := applyCart_isOk_eq_fits sid ms cart
  rw [h] at hiso
  cases hc : applyCart sid ms cart with
  | error e =>
    rw [hc] at hiso
    exact absurd hiso Bool.false_ne_true
  | ok pr => exact ⟨pr.1, pr.2, rfl⟩

theorem posStep1_find_pres {db db1 : DB} {req : PosRequest} {perm : Bool}
    {now sid : Nat}
    (h : posStep1 db req perm now = .ok (db1, sid)) (mid : Nat) :
    (findMedicine db1.medicines mid).isSome
      = (findMedicine db.medicines mid).isSome := by
  rcases posStep1_ok_cases h with ⟨hdb1, _⟩ | ⟨_, ms1, hrest, hdb1⟩
  · rw [hdb1]
    rfl
  · rw [hdb1]
    dsimp only
    exact restoreItems_find hrest mid

theorem posStep1_nonneg {db db1 : DB} {req : PosRequest} {perm : Bool}
    {now sid : Nat}
    (h : posStep1 db req perm now = .ok (db1, sid))
    (hm : MedsNonneg db) : ∀ m ∈ db1.medicines, 0 ≤ m.quantity := by
  unfold MedsNonneg at hm
  rcases posStep1_ok_cases h with ⟨hdb1, _⟩ | ⟨_, ms1, hrest, hdb1⟩
  · rw [hdb1]
    dsimp only [posStepNew]
    exact hm
  · rw [hdb1]
    dsimp only
    exact restoreItems_nonneg hrest hm

/-- Counterexample to C5 as stated: medicine 1 is soft-deleted
(`is_active = false`, stock 5), yet a cart referencing it is applied
successfully — the cart loop uses `Medicine.objects.get(pk=...)` with
no `is_active` filter (views.py line 290) — and its stock drops to 3
with a Sale and SaleItem persisted, so a soft-deleted medicine can be
sold. -/
theorem C5_counterexample :
    (posPost ⟨[⟨1, 5, 100, false⟩], [], [], 1⟩
        ⟨[⟨1, 2, 100⟩], 0, "", "", "", none⟩ 3 false 0
      = .ok ⟨[⟨1, 3, 100, false⟩], [⟨1, 0, some 3, 0, 200, "", "", ""⟩],
             [⟨1, 1, 2, 100⟩], 2⟩) ∧
    (⟨1, 5, 100, false⟩ : Medicine).is_active = false :=
  ⟨rfl, rfl⟩

/-- C5 amended: a cart line referencing a medicine id with no matching
row makes apply/amend fail and the whole transaction rolls back with no
state change, and the failure is specifically the medicine-not-found
error (`Medicine.DoesNotExist` from `Medicine.objects.get`, views.py
line 290): whenever the cart loop reaches such a line — the preceding
lines having passed their checks — the escaping exception is
`MedicineNotFound` with that line's id, on the apply path and the amend
path alike. Soft-deleted medicines are excluded from the POS product
listing (`views.py` line 313), but the transaction handler itself never
checks `is_active`, so a cart line referencing a soft-deleted medicine
is processed and sold normally. -/
theorem C5_missing_medicine (db : DB) (req : PosRequest) (actor now : Nat)
    (perm : Bool)
    (h : ∃ l ∈ req.cart, findMedicine db.medicines l.id = none) :
    (∀ db', posPost db req actor perm now ≠ .ok db') ∧
    posPostState db req actor perm now = db ∧
    (∀ m ∈ posListing db, m.is_active = true) ∧
    (∀ db1 sid1 pre l rest, posStep1 db req perm now = .ok (db1, sid1) →
      req.cart = pre ++ l :: rest →
      cartFits db1.medicines pre = true →
      findMedicine db.medicines l.id = none →
      posPost db req actor perm now = .error (.MedicineNotFound l.id)) := by
  obtain ⟨l, hl, hnone⟩ := h
  have hfail : ∀ db', posPost db req actor perm now ≠ .ok db' := by
    intro db' hok
    have hf := posPost_ok_cart_found hok l hl
    rw [hnone] at hf
    simp at hf
  refine ⟨hfail, ?_, ?_, ?_⟩
  · cases hp : posPost db req actor perm now with
    | error e => exact posPostState_of_error hp
    | ok db' => exact absurd hp (hfail db')
  · intro m hm
    unfold posListing at hm
    rw [List.mem_filter] at hm
    have hb := hm.2
    simp at hb
    exact hb.2
  · intro db1 sid1 pre l' rest hstep1 hcart hfits hnone'
    have hpp : posPost db req actor perm now = posStep234 db1 sid1 req actor := by
      unfold posPost
      simp only [hstep1]
    obtain ⟨ms1, items1, hpre⟩ := @applyCart_ok_of_fits _ _ sid1 hfits
    have hnone1 : findMedicine ms1 l'.id = none := by
      have ht1 := applyCart_find_pres hpre l'.id
      rw [posStep1_find_pres hstep1, hnone'] at ht1
      cases hfm : findMedicine ms1 l'.id with
      | some m => rw [hfm] at ht1; simp at ht1
      | none => rfl
    have herr : applyCart sid1 ms1 (l' :: rest)
        = .error (.MedicineNotFound l'.id) := by
      unfold applyCart
      simp only [hnone1]
    have happ := applyCart_append_error hpre herr
    rw [hpp]
    apply posStep234_error_of_applyCart
    rw [hcart]
    exact happ

/-- Witness for C5's amended statement: a cart referencing the
nonexistent medicine id 9 fails with `MedicineNotFound 9` and leaves
the database unchanged. -/
theorem C5_witness :
    posPost ⟨[⟨1, 5, 100, true⟩], [], [], 1⟩
        ⟨[⟨9, 1, 10⟩], 0, "", "", "", none⟩ 1 false 0
      = .error (.MedicineNotFound 9) ∧
    posPostState ⟨[⟨1, 5, 100, true⟩], [], [], 1⟩
        ⟨[⟨9, 1, 10⟩], 0, "", "", "", none⟩ 1 false 0
      = ⟨[⟨1, 5, 100, true⟩], [], [], 1⟩ := by
  have h := C5_missing_medicine ⟨[⟨1, 5, 100, true⟩], [], [], 1⟩
      ⟨[⟨9, 1, 10⟩], 0, "", "", "", none⟩ 1 0 false
      ⟨⟨9, 1, 10⟩, by decide, by rfl⟩
  refine ⟨?_, h.2.1⟩
  exact h.2.2.2 ⟨[⟨1, 5, 100, true⟩], [⟨1, 0, none, 0, 0, "", "", ""⟩], [], 2⟩
    1 [] ⟨9, 1, 10⟩ [] (by rfl) rfl (by rfl) (by rfl)

/-- Counterexample to C6 as stated: a request whose only cart line has
quantity 0 and unit price -20, with delivery fee -50, is not rejected:
the transaction succeeds and persists a Sale row (with
`delivery_fee = -50`, `total_amount = -50`) and a SaleItem row with
quantity 0 and a negative price — malformed input mutates state. -/
theorem C6_counterexample :
    posPost ⟨[⟨1, 5, 100, true⟩], [], [], 1⟩
        ⟨[⟨1, 0, -20⟩], -50, "", "", "", none⟩ 1 false 0
      = .ok ⟨[⟨1, 5, 100, true⟩], [⟨1, 0, some 1, -50, -50, "", "", ""⟩],
             [⟨1, 1, 0, -20⟩], 2⟩ :=
  rfl

/-- C6 amended: the handler performs no input validation. A zero
quantity, a negative unit price and a negative delivery fee are all
accepted and persisted (the success clause below holds for every `p`
and every `req.delivery_fee`, negative included). Only a negative line
quantity makes the transaction fail, and the failure is specifically
`IntegrityError` from the `PositiveIntegerField` database constraint on
`SaleItem.quantity` (`models.py` line 132), raised at
`SaleItem.objects.create` after the handler has already begun mutating
state: whenever the cart loop reaches a negative-quantity line whose
medicine exists (stock being non-negative, the stock check
`quantity < quantity_sold` passes trivially), the escaping exception is
`IntegrityError`. That failure is undone by the transaction rollback,
so the net state is unchanged rather than "rejected before any state
mutation". -/
theorem C6_no_input_validation (db : DB) (req : PosRequest)
    (actor now : Nat) (perm : Bool) (mid : Nat) (m : Medicine) (p : Int)
    (hq : 0 ≤ m.quantity) :
    ((∃ l ∈ req.cart, l.quantity < 0) →
        (∀ db', posPost db req actor perm now ≠ .ok db') ∧
        posPostState db req actor perm now = db) ∧
    (req.cart = [⟨mid, 0, p⟩] → req.sale_id = none →
        findMedicine db.medicines mid = some m →
        (posPost db req actor perm now).isOk = true) ∧
    (MedsNonneg db →
      ∀ db1 sid1 pre l rest, posStep1 db req perm now = .ok (db1, sid1) →
        req.cart = pre ++ l :: rest →
        cartFits db1.medicines pre = true →
        (findMedicine db.medicines l.id).isSome = true →
        l.quantity < 0 →
        posPost db req actor perm now = .error .IntegrityError) := by
  refine ⟨?_, ?_, ?_⟩
  · intro hneg
    obtain ⟨l, hl, hlq⟩ := hneg
    have hfail : ∀ db', posPost db req actor perm now ≠ .ok db' := by
      intro db' hok
      have := posPost_ok_cart_nonneg hok l hl
      omega
    refine ⟨hfail, ?_⟩
    cases hp : posPost db req actor perm now with
    | error e => exact posPostState_of_error hp
    | ok db' => exact absurd hp (hfail db')
  · intro hcart hnew hfind
    rw [posPost_new_isOk _ _ _ _ _ hnew, hcart, applyCart_isOk_eq_fits]
    unfold cartFits
    simp only [hfind]
    rw [if_neg (show ¬ m.quantity < 0 by omega),
        if_neg (show ¬ (0 : Int) < 0 by omega)]
    rfl
  · intro hmn db1 sid1 pre l rest hstep1 hcart hfits hfound hlneg
    have hpp : posPost db req actor perm now = posStep234 db1 sid1 req actor := by
      unfold posPost
      simp only [hstep1]
    obtain ⟨ms1, items1, hpre⟩ := @applyCart_ok_of_fits _ _ sid1 hfits
    have hms1 : ∀ m0 ∈ ms1, 0 ≤ m0.quantity :=
      applyCart_nonneg hpre (posStep1_nonneg hstep1 hmn)
    have hfound1 : (findMedicine ms1 l.id).isSome = true := by
      rw [applyCart_find_pres hpre, posStep1_find_pres hstep1]
      exact hfound
    cases hfm : findMedicine ms1 l.id with
    | none => rw [hfm] at hfound1; simp at hfound1
    | some m1 =>
      have hm1q : 0 ≤ m1.quantity := by
        apply hms1
        exact List.mem_of_find?_eq_some hfm
      have herr : applyCart sid1 ms1 (l :: rest) = .error .IntegrityError := by
        unfold applyCart
        simp only [hfm, if_neg (show ¬ m1.quantity < l.quantity by omega),
          if_pos hlneg]
      have happ := applyCart_append_error hpre herr
      rw [hpp]
      apply posStep234_error_of_applyCart
      rw [hcart]
      exact happ

/-- Witness for C6's amended statement: the zero-quantity, negative-
price, negative-fee request is accepted; a negative-quantity request
fails with `IntegrityError` and the state is rolled back unchanged. -/
theorem C6_witness :
    (posPost ⟨[⟨1, 5, 100, true⟩], [], [], 1⟩
        ⟨[⟨1, 0, -20⟩], -50, "", "", "", none⟩ 1 false 0).isOk = true ∧
    posPost ⟨[⟨1, 5, 100, true⟩], [], [], 1⟩
        ⟨[⟨1, -3, 10⟩], 0, "", "", "", none⟩ 1 false 0
      = .error .IntegrityError ∧
    posPostState ⟨[⟨1, 5, 100, true⟩], [], [], 1⟩
        ⟨[⟨1, -3, 10⟩], 0, "", "", "", none⟩ 1 false 0
      = ⟨[⟨1, 5, 100, true⟩], [], [], 1⟩ := by
  refine ⟨?_, ?_, ?_⟩
  · exact (C6_no_input_validation ⟨[⟨1, 5, 100, true⟩], [], [], 1⟩
      ⟨[⟨1, 0, -20⟩], -50, "", "", "", none⟩ 1 0 false 1
      ⟨1, 5, 100, true⟩ (-20) (by decide)).2.1 rfl rfl (by rfl)
  · exact (C6_no_input_validation ⟨[⟨1, 5, 100, true⟩], [], [], 1⟩
      ⟨[⟨1, -3, 10⟩], 0, "", "", "", none⟩ 1 0 false 1
      ⟨1, 5, 100, true⟩ 0 (by decide)).2.2 (by decide)
      ⟨[⟨1, 5, 100, true⟩], [⟨1, 0, none, 0, 0, "", "", ""⟩], [], 2⟩
      1 [] ⟨1, -3, 10⟩ [] (by rfl) rfl (by rfl) (by rfl) (by decide)
  · exact ((C6_no_input_validation ⟨[⟨1, 5, 100, true⟩], [], [], 1⟩
      ⟨[⟨1, -3, 10⟩], 0, "", "", "", none⟩ 1 0 false 1
      ⟨1, 5, 100, true⟩ 0 (by decide)).1
      ⟨⟨1, -3, 10⟩, by decide, by decide⟩).2

theorem mem_cartItems {it : SaleItem} {sid : Nat} {cart : List CartLine}
    (h : it ∈ cartItems sid cart) :
    ∃ l ∈ cart, it = ⟨sid, l.id, l.quantity, l.price⟩ := by
  induction cart with
  | nil => cases h
  | cons l rest ih =>
    unfold cartItems at h
    rw [List.mem_cons] at h
    rcases h with h | h
    · exact ⟨l, List.mem_cons_self _ _, h⟩
    · obtain ⟨l', hl', he⟩ := ih h
      exact ⟨l', List.mem_cons_of_mem _ hl', he⟩

/-- Counterexample to C7 as stated: medicine 1's `selling_price` is
500, but the cart line carries price 999 and the created SaleItem
stores `price_at_sale = 999` — the snapshot is the caller-supplied cart
price (`int(item_data['price'])`, views.py line 292), not the
medicine's selling price at transaction time. -/
theorem C7_counterexample :
    (posPostState ⟨[⟨1, 5, 500, true⟩], [], [], 1⟩
        ⟨[⟨1, 2, 999⟩], 0, "", "", "", none⟩ 1 false 0).saleItems
      = [⟨1, 1, 2, 999⟩] ∧
    findMedicine (⟨[⟨1, 5, 500, true⟩], [], [], 1⟩ : DB).medicines 1
      = some ⟨1, 5, 500, true⟩ :=
  ⟨rfl, rfl⟩

/-- C7 amended: every SaleItem row present after a successful apply or
amend is either a pre-existing row or snapshots its cart line — its
`price_at_sale` equals the caller-supplied line price (which the POS
client populates from the selling price, but the server stores whatever
the request carries) — and the snapshot is immutable: a later edit of
the medicine's `selling_price` leaves every SaleItem untouched. -/
theorem C7_price_snapshot_from_cart (db db' : DB) (req : PosRequest)
    (actor now : Nat) (perm : Bool)
    (hok : posPost db req actor perm now = .ok db') :
    (∀ it ∈ db'.saleItems, it ∈ db.saleItems ∨
      ∃ l ∈ req.cart, it.medicine_id = l.id ∧ it.quantity = l.quantity ∧
        it.price_at_sale = l.price) ∧
    (∀ mid p, (setSellingPrice db' mid p).saleItems = db'.saleItems) := by
  constructor
  · obtain ⟨db1, sid, h1, h2⟩ := posPost_ok_shape hok
    obtain ⟨ms', newItems, hcart, hdb'⟩ := posStep234_ok h2
    have hni := applyCart_items hcart
    have hsub : db1.saleItems.Sublist db.saleItems := by
      rcases posStep1_ok_cases h1 with ⟨hdb1, _⟩ | ⟨_, ms1, _, hdb1⟩
      · rw [hdb1]
        dsimp only [posStepNew]
        exact List.Sublist.refl _
      · rw [hdb1]
        dsimp only
        exact List.filter_sublist _
    intro it hit
    rw [hdb'] at hit
    dsimp only at hit
    rw [List.mem_append] at hit
    rcases hit with hit | hit
    · exact Or.inl (hsub.subset hit)
    · right
      rw [hni] at hit
      obtain ⟨l, hl, he⟩ := mem_cartItems hit
      exact ⟨l, hl, by rw [he], by rw [he], by rw [he]⟩
  · intro mid p
    rfl

/-- Witness for C7's amended statement: after the sale that stored
`price_at_sale = 999`, changing the medicine's selling price to 777
leaves the SaleItem rows exactly as they were. -/
theorem C7_witness :
    (setSellingPrice (posPostState ⟨[⟨1, 5, 500, true⟩], [], [], 1⟩
        ⟨[⟨1, 2, 999⟩], 0, "", "", "", none⟩ 1 false 0) 1 777).saleItems
      = (posPostState ⟨[⟨1, 5, 500, true⟩], [], [], 1⟩
          ⟨[⟨1, 2, 999⟩], 0, "", "", "", none⟩ 1 false 0).saleItems := by
  have hok : posPost ⟨[⟨1, 5, 500, true⟩], [], [], 1⟩
      ⟨[⟨1, 2, 999⟩], 0, "", "", "", none⟩ 1 false 0
      = .ok (posPostState ⟨[⟨1, 5, 500, true⟩], [], [], 1⟩
          ⟨[⟨1, 2, 999⟩], 0, "", "", "", none⟩ 1 false 0) := by rfl
  exact (C7_price_snapshot_from_cart _ _ _ _ _ _ hok).2 1 777

theorem posPost_ok_medsNonneg {db db' : DB} {req : PosRequest}
    {actor : Nat} {perm : Bool} {now : Nat}
    (hok : posPost db req actor perm now = .ok db')
    (h : MedsNonneg db) : MedsNonneg db' := by
  unfold MedsNonneg at h ⊢
  obtain ⟨db1, sid, h1, h2⟩ := posPost_ok_shape hok
  obtain ⟨ms', newItems, hcart, hdb'⟩ := posStep234_ok h2
  have h1m : ∀ m ∈ db1.medicines, 0 ≤ m.quantity := by
    rcases posStep1_ok_cases h1 with ⟨hdb1, _⟩ | ⟨_, ms1, hrest, hdb1⟩
    · rw [hdb1]
      dsimp only [posStepNew]
      exact h
    · rw [hdb1]
      dsimp only
      exact restoreItems_nonneg hrest h
  have hres := applyCart_nonneg hcart h1m
  rw [hdb']
  exact hres

/-- C8: for every sequence of POS requests (apply or amend, with
arbitrary carts, fees and prices) executed one at a time, starting from
a state in which every medicine's quantity is at least 0, every
medicine's quantity is still at least 0 after the sequence — and since
every prefix of `ops` is itself an instance of `ops`, after each
individual operation, whether it succeeds (guarded decrement, restore
of non-negative item quantities, `PositiveIntegerField` write checks)
or fails (full rollback). -/
theorem C8_stock_nonneg (db : DB) (ops : List PosCall)
    (h : MedsNonneg db) : MedsNonneg (runOps db ops) := by
  induction ops generalizing db with
  | nil => exact h
  | cons o rest ih =>
    unfold runOps
    apply ih
    unfold posPostState
    cases hp : posPost db o.req o.actor o.canChangeSale o.now with
    | error e => exact h
    | ok db' => exact posPost_ok_medsNonneg hp h

/-- Witness for C8: a successful sale followed by a failing one (stock
1 cannot cover 9) starting from stock 3; the stock is non-negative
after the sequence. -/
theorem C8_witness :
    MedsNonneg (runOps ⟨[⟨1, 3, 50, true⟩], [], [], 1⟩
      [⟨⟨[⟨1, 2, 50⟩], 0, "", "", "", none⟩, 1, false, 0⟩,
       ⟨⟨[⟨1, 9, 50⟩], 0, "", "", "", none⟩, 1, false, 1⟩]) := by
  exact C8_stock_nonneg _ _ (by decide)
